import Mathlib

/-!
# Verification of `unified-ir-reader`

A shallow embedding, in Lean 4, of the `unified-ir-reader` tool: the archive
extraction and payload-framing code of `main.go`, the listing/limit logic of
`showDetailedFormat`, and (modelled from the specification, since the
`pkgbits` package sources are not available) the varint/zig-zag codecs, the
envelope decoder's section bookkeeping, the element cursor's reference-table
discipline, and `PeekObj`.

Bytes are modelled as `Nat` values `< 256` inside `List Nat`; Go `int`
arithmetic that can go negative (archive entry sizes, scan offsets) is
modelled with `Int`, using `Int.tmod` for Go's truncated `%` operator.
-/

namespace UIR

/-! ## Varint and zig-zag codecs

Modelled from the spec: the `pkgbits` primitive codecs are not among the
available sources.  The spec fixes them exactly: "Unsigned varint:
little-endian, 7 payload bits per byte, high bit = continuation; fails with
VarintOverflowError past 64 bits of accumulated value" and "Signed varint
(zig-zag): encode `n≥0 → 2n`, `n<0 → -2n-1`; decode by inverse mapping after
unsigned-varint decode". -/

/-- Modelled from the spec: unsigned-varint encoding, little-endian, 7 payload
bits per byte, high bit set on every byte except the last. -/
def encodeUVarint (u : Nat) : List Nat :=
  if _h : u < 128 then [u]
  else (u % 128 + 128) :: encodeUVarint (u / 128)
termination_by u
decreasing_by exact Nat.div_lt_self (by omega) (by omega)

/-- Modelled from the spec: unsigned-varint decoding; accumulates 7 bits per
byte and fails (`none`) on buffer exhaustion or once the accumulated value
would pass 64 bits (VarintOverflowError).  Returns the value and the
remaining bytes. -/
def decodeUVarintAux : List Nat → Nat → Nat → Option (Nat × List Nat)
  | [], _, _ => none
  | b :: rest, shift, acc =>
    if 64 ≤ shift then none
    else if b < 128 then
      let v := acc + b * 2 ^ shift
      if v < 2 ^ 64 then some (v, rest) else none
    else decodeUVarintAux rest (shift + 7) (acc + (b - 128) * 2 ^ shift)

/-- Modelled from the spec: top-level unsigned-varint decode. -/
def decodeUVarint (bytes : List Nat) : Option (Nat × List Nat) :=
  decodeUVarintAux bytes 0 0

/-- Modelled from the spec: zig-zag encoding, `n ≥ 0 → 2n`, `n < 0 → -2n-1`. -/
def encodeZigzag (n : Int) : Nat :=
  if 0 ≤ n then (2 * n).toNat else (-2 * n - 1).toNat

/-- Modelled from the spec: zig-zag decoding, the inverse mapping, applied to
the result of an unsigned-varint decode. -/
def decodeZigzag (u : Nat) : Int :=
  if u % 2 = 0 then ((u / 2 : Nat) : Int) else -((u / 2 : Nat) : Int) - 1

theorem decodeUVarintAux_encode (u : Nat) :
    ∀ (shift acc : Nat) (rest : List Nat), shift < 64 →
      acc + u * 2 ^ shift < 2 ^ 64 →
      decodeUVarintAux (encodeUVarint u ++ rest) shift acc =
        some (acc + u * 2 ^ shift, rest) := by
  induction u using Nat.strong_induction_on with
  | _ u ih =>
    intro shift acc rest hs hbound
    rw [encodeUVarint]
    split
    · rename_i hu
      simp only [List.cons_append, List.nil_append, decodeUVarintAux]
      rw [if_neg (by omega), if_pos hu, if_pos hbound]
      rfl
    · rename_i hu
      simp only [List.cons_append, decodeUVarintAux]
      rw [if_neg (by omega), if_neg (by omega)]
      have hmul : 2 ^ (shift + 7) ≤ u * 2 ^ shift := by
        have h128 : (2 : Nat) ^ (shift + 7) = 128 * 2 ^ shift := by
          rw [pow_add]; ring
        rw [h128]
        exact Nat.mul_le_mul_right _ (by omega)
      have hs7 : shift + 7 < 64 := by
        by_contra hcon
        have h1 : (2 : Nat) ^ 64 ≤ 2 ^ (shift + 7) :=
          Nat.pow_le_pow_right (by omega) (by omega)
        omega
      have hlt : u / 128 < u := Nat.div_lt_self (by omega) (by omega)
      have hdm : 128 * (u / 128) + u % 128 = u := Nat.div_add_mod u 128
      have heq : acc + (u % 128 + 128 - 128) * 2 ^ shift + u / 128 * 2 ^ (shift + 7) =
          acc + u * 2 ^ shift := by
        have h128 : (2 : Nat) ^ (shift + 7) = 2 ^ shift * 128 := by
          rw [pow_add]; ring
        rw [show u % 128 + 128 - 128 = u % 128 from by omega, h128]
        conv_rhs => rw [← hdm]
        ring
      have hrec := ih (u / 128) hlt (shift + 7)
        (acc + (u % 128 + 128 - 128) * 2 ^ shift) rest hs7 (by rw [heq]; exact hbound)
      rw [heq] at hrec
      exact hrec

theorem decodeUVarint_encodeUVarint (u : Nat) (h : u < 2 ^ 64) :
    decodeUVarint (encodeUVarint u) = some (u, []) := by
  have h0 := decodeUVarintAux_encode u 0 0 [] (by omega) (by simpa using h)
  rw [List.append_nil] at h0
  simpa [decodeUVarint] using h0

theorem decodeZigzag_encodeZigzag (n : Int) :
    decodeZigzag (encodeZigzag n) = n := by
  unfold encodeZigzag decodeZigzag
  split <;> split <;> omega

theorem encodeZigzag_lt (n : Int) (h1 : -(2 ^ 63) ≤ n) (h2 : n < 2 ^ 63) :
    encodeZigzag n < 2 ^ 64 := by
  unfold encodeZigzag
  split <;> omega

/-- C1: decoding the unsigned-varint encoding of any `u < 2^64` yields `u`;
zig-zag decoding (the inverse mapping, applied after unsigned-varint decode)
of the zig-zag encoding of any `n` in the signed 64-bit range yields `n`. -/
theorem uvarint_zigzag_roundTrip (u : Nat) (hu : u < 2 ^ 64) (n : Int)
    (hn1 : -(2 ^ 63) ≤ n) (hn2 : n < 2 ^ 63) :
    decodeUVarint (encodeUVarint u) = some (u, []) ∧
    decodeZigzag (encodeZigzag n) = n ∧
    (decodeUVarint (encodeUVarint (encodeZigzag n))).map
      (fun p => decodeZigzag p.1) = some n := by
  refine ⟨decodeUVarint_encodeUVarint u hu, decodeZigzag_encodeZigzag n, ?_⟩
  rw [decodeUVarint_encodeUVarint _ (encodeZigzag_lt n hn1 hn2)]
  simp [decodeZigzag_encodeZigzag]

/-- Witness for C1 at `u = 300`, `n = -7`. -/
theorem uvarint_zigzag_roundTrip_witness :
    decodeUVarint (encodeUVarint 300) = some (300, []) ∧
    decodeZigzag (encodeZigzag (-7)) = -7 ∧
    (decodeUVarint (encodeUVarint (encodeZigzag (-7)))).map
      (fun p => decodeZigzag p.1) = some (-7) :=
  uvarint_zigzag_roundTrip 300 (by norm_num) (-7) (by norm_num) (by norm_num)

/-! ## Envelope decoder

Modelled from the spec: the `pkgbits` envelope decoder is not among the
available sources.  §4.1: ten fixed sections; cumulative section boundaries;
`NumElems(section)` is the difference between this section's boundary and the
previous one; total element count is derived from the largest section
boundary; construction fails fast on decreasing offsets (StructuralError). -/

/-- The ten fixed section kinds, in format order. -/
inductive SectionKind
  | SectionString
  | SectionMeta
  | SectionPosBase
  | SectionPkg
  | SectionName
  | SectionType
  | SectionObj
  | SectionObjExt
  | SectionObjDict
  | SectionBody
deriving DecidableEq, Repr

def SectionKind.toIdx : SectionKind → Nat
  | .SectionString => 0
  | .SectionMeta => 1
  | .SectionPosBase => 2
  | .SectionPkg => 3
  | .SectionName => 4
  | .SectionType => 5
  | .SectionObj => 6
  | .SectionObjExt => 7
  | .SectionObjDict => 8
  | .SectionBody => 9

/-- The ten sections in index order. -/
def allSections : List SectionKind :=
  [.SectionString, .SectionMeta, .SectionPosBase, .SectionPkg, .SectionName,
   .SectionType, .SectionObj, .SectionObjExt, .SectionObjDict, .SectionBody]

/-- Modelled from the spec: the envelope decoder's parsed view — sync-marker
flag (derived once from version/flags), the ten cumulative section
boundaries (in elements), the cumulative element byte end-offsets, the shared
element-data region, and the trailing 8-byte fingerprint. -/
structure PkgDecoder where
  syncMarkers : Bool
  sectionEnds : List Nat
  elemEnds : List Nat
  elemData : List Nat
  fingerprint : List Nat
deriving DecidableEq, Repr

/-- Cumulative offsets must be monotonically non-decreasing. -/
def monotoneEnds : List Nat → Bool
  | [] => true
  | [_] => true
  | a :: b :: t => decide (a ≤ b) && monotoneEnds (b :: t)

/-- Modelled from the spec: envelope-decoder construction; fails fast
(`none`, StructuralError) when the header is malformed: wrong boundary-table
arity, decreasing cumulative offsets, element-offset table length not equal
to the largest section boundary, or a boundary exceeding the buffer. -/
def mkPkgDecoder (syncMarkers : Bool)
    (sectionEnds elemEnds elemData fingerprint : List Nat) : Option PkgDecoder :=
  if sectionEnds.length == 10 && monotoneEnds sectionEnds &&
      (elemEnds.length == sectionEnds.getD 9 0) && monotoneEnds elemEnds &&
      decide (elemEnds.getD (elemEnds.length - 1) 0 ≤ elemData.length) &&
      (fingerprint.length == 8) then
    some ⟨syncMarkers, sectionEnds, elemEnds, elemData, fingerprint⟩
  else none

/-- Modelled from the spec: `NumElems(section)` — the difference between this
section's cumulative boundary and the previous section's boundary. -/
def NumElems (d : PkgDecoder) (k : SectionKind) : Nat :=
  d.sectionEnds.getD k.toIdx 0 -
    (if k.toIdx = 0 then 0 else d.sectionEnds.getD (k.toIdx - 1) 0)

/-- Modelled from the spec: `TotalElems()` — derived from the largest
(last) section boundary. -/
def TotalElems (d : PkgDecoder) : Nat :=
  d.sectionEnds.getD 9 0

/-- C2: for every successfully constructed envelope decoder, the sum of
`NumElems` over the ten sections equals `TotalElems`. -/
theorem numElems_sum_eq_totalElems (syncMarkers : Bool)
    (sectionEnds elemEnds elemData fingerprint : List Nat) (d : PkgDecoder)
    (h : mkPkgDecoder syncMarkers sectionEnds elemEnds elemData fingerprint = some d) :
    ((allSections.map fun s => NumElems d s).sum) = TotalElems d := by
  unfold mkPkgDecoder at h
  split at h
  · rename_i hcond
    simp only [Bool.and_eq_true, beq_iff_eq, decide_eq_true_eq] at hcond
    obtain ⟨⟨⟨⟨⟨hlen, hchain⟩, -⟩, -⟩, -⟩, -⟩ := hcond
    obtain ⟨rfl⟩ := Option.some_injective _ h
    rcases sectionEnds with _ | ⟨a0, t⟩
    · simp at hlen
    rcases t with _ | ⟨a1, t⟩
    · simp at hlen
    rcases t with _ | ⟨a2, t⟩
    · simp at hlen
    rcases t with _ | ⟨a3, t⟩
    · simp at hlen
    rcases t with _ | ⟨a4, t⟩
    · simp at hlen
    rcases t with _ | ⟨a5, t⟩
    · simp at hlen
    rcases t with _ | ⟨a6, t⟩
    · simp at hlen
    rcases t with _ | ⟨a7, t⟩
    · simp at hlen
    rcases t with _ | ⟨a8, t⟩
    · simp at hlen
    rcases t with _ | ⟨a9, t⟩
    · simp at hlen
    rcases t with _ | ⟨a10, t⟩
    · simp only [monotoneEnds, Bool.and_eq_true, decide_eq_true_eq] at hchain
      simp [allSections, NumElems, TotalElems, SectionKind.toIdx, List.getD]
      omega
    · simp at hlen
  · exact absurd h (by simp)

/-- A concrete successfully-constructed decoder used by the C2 witness. -/
def decWitness : PkgDecoder :=
  ⟨true, [2, 3, 3, 4, 4, 4, 5, 5, 5, 6], [1, 2, 3, 4, 5, 6],
   [7, 7, 7, 7, 7, 7], [0, 1, 2, 3, 4, 5, 6, 7]⟩

/-- Witness for C2 on a concrete decoder. -/
theorem numElems_sum_eq_totalElems_witness :
    ((allSections.map fun s => NumElems decWitness s).sum) = TotalElems decWitness :=
  numElems_sum_eq_totalElems true [2, 3, 3, 4, 4, 4, 5, 5, 5, 6] [1, 2, 3, 4, 5, 6]
    [7, 7, 7, 7, 7, 7] [0, 1, 2, 3, 4, 5, 6, 7] decWitness (by decide)

/-! ## Element cursor

Modelled from the spec: the `pkgbits` element cursor is not among the
available sources.  §4.2: the cursor is constructed over one element's byte
range, eagerly decodes the full reference table (a uvarint length followed by
that many (section-kind, element-index) uvarint pairs), and consumes it
strictly in declaration order via `Reloc`. -/

inductive DecodeErr
  | bounds
  | varintOverflow
  | sectionMismatch (expected got : SectionKind)
  | syncMismatch (expected got : Nat)
deriving DecidableEq, Repr

/-- Modelled from the spec: the element cursor — the sync-marker flag, the
unconsumed suffix of the pre-decoded reference table, and the remaining
element bytes. -/
structure ElemCursor where
  syncMarkers : Bool
  relocs : List (SectionKind × Nat)
  data : List Nat
deriving DecidableEq, Repr

/-- Modelled from the spec: `Reloc(expectedSection)` pops the next
pre-decoded reference-table entry; fails with SectionMismatchError if its
recorded section kind differs from `expectedSection`; returns the recorded
element index. -/
def Reloc (expected : SectionKind) (c : ElemCursor) :
    Except DecodeErr (Nat × ElemCursor) :=
  match c.relocs with
  | [] => .error .bounds
  | (k, i) :: rest =>
    if k = expected then .ok (i, { c with relocs := rest })
    else .error (.sectionMismatch expected k)

/-- C3: if the next unconsumed reference-table entry's recorded section kind
differs from the argument, `Reloc` fails with SectionMismatchError (never
silently substituting an entry); if it matches, `Reloc` returns that entry's
recorded element index and consumes exactly that entry, so entries are
consumed strictly in declaration order. -/
theorem reloc_discipline (c : ElemCursor) (k : SectionKind) (i : Nat)
    (rest : List (SectionKind × Nat)) (s : SectionKind)
    (h : c.relocs = (k, i) :: rest) :
    (k ≠ s → Reloc s c = .error (.sectionMismatch s k)) ∧
    (k = s → Reloc s c = .ok (i, { c with relocs := rest })) := by
  constructor
  · intro hne
    simp [Reloc, h, hne]
  · intro heq
    simp [Reloc, h, heq]

/-- A concrete cursor used by the C3 witness. -/
def curWitness : ElemCursor :=
  ⟨false, [(.SectionBody, 5), (.SectionType, 2)], [9, 9]⟩

/-- Witness for C3: on a concrete cursor whose next table entry records
section Body, `Reloc Type` fails with a SectionMismatchError and `Reloc Body`
returns the recorded index, consuming the entry. -/
theorem reloc_discipline_witness :
    Reloc .SectionType curWitness =
      .error (.sectionMismatch .SectionType .SectionBody) ∧
    Reloc .SectionBody curWitness =
      .ok (5, { curWitness with relocs := [(.SectionType, 2)] }) :=
  ⟨(reloc_discipline curWitness .SectionBody 5 [(.SectionType, 2)] .SectionType
      rfl).1 (by decide),
   (reloc_discipline curWitness .SectionBody 5 [(.SectionType, 2)] .SectionBody
      rfl).2 rfl⟩

/-! ## PeekObj and full element decode (spec-modelled) -/

/-- Modelled from the spec: mapping a decoded section-kind code (0–9) to a
section; unknown codes are a detectable, explicit error. -/
def SectionKind.ofNat? : Nat → Option SectionKind
  | 0 => some .SectionString
  | 1 => some .SectionMeta
  | 2 => some .SectionPosBase
  | 3 => some .SectionPkg
  | 4 => some .SectionName
  | 5 => some .SectionType
  | 6 => some .SectionObj
  | 7 => some .SectionObjExt
  | 8 => some .SectionObjDict
  | 9 => some .SectionBody
  | _ => none

/-- Absolute element index of `(section, relative index)`: the previous
section's cumulative boundary plus the relative index. -/
def absIdx (d : PkgDecoder) (k : SectionKind) (i : Nat) : Nat :=
  (if k.toIdx = 0 then 0 else d.sectionEnds.getD (k.toIdx - 1) 0) + i

/-- Modelled from the spec: `ElementRange(section, index)` — the element's
byte range `[elemEnds[a-1], elemEnds[a])` inside the shared element-data
region; fails with DecodeBoundsError when `index ≥ NumElems(section)`. -/
def elemRange (d : PkgDecoder) (k : SectionKind) (i : Nat) :
    Except DecodeErr (List Nat) :=
  if i < NumElems d k then
    let a := absIdx d k i
    let lo := if a = 0 then 0 else d.elemEnds.getD (a - 1) 0
    let hi := d.elemEnds.getD a 0
    .ok ((d.elemData.take hi).drop lo)
  else .error .bounds

/-- Modelled from the spec: decode the reference table — `n` pairs of
(section-kind, element-index) uvarints. -/
def decodeRelocTable : Nat → List Nat → Option (List (SectionKind × Nat) × List Nat)
  | 0, bs => some ([], bs)
  | n + 1, bs =>
    match decodeUVarint bs with
    | none => none
    | some (sk, bs1) =>
      match SectionKind.ofNat? sk with
      | none => none
      | some k =>
        match decodeUVarint bs1 with
        | none => none
        | some (idx, bs2) =>
          match decodeRelocTable n bs2 with
          | none => none
          | some (tbl, bs3) => some ((k, idx) :: tbl, bs3)

/-- Modelled from the spec: read an unsigned varint from the cursor. -/
def readUVarint (c : ElemCursor) : Except DecodeErr (Nat × ElemCursor) :=
  match decodeUVarint c.data with
  | none => .error .varintOverflow
  | some (v, rest) => .ok (v, { c with data := rest })

/-- Skip `n` uvarints (the discarded diagnostic program counters of a debug
sync marker). -/
def skipUVarints : Nat → List Nat → Option (List Nat)
  | 0, bs => some bs
  | n + 1, bs =>
    match decodeUVarint bs with
    | none => none
    | some (_, rest) => skipUVarints n rest

/-- Modelled from the spec: `Sync(expectedKind)` — a no-op when sync markers
are disabled; otherwise reads a marker-kind uvarint and a diagnostic list (a
uvarint count followed by that many discarded uvarints), failing with
SyncMismatchError if the kind differs from `expectedKind`. -/
def syncCursor (expected : Nat) (c : ElemCursor) : Except DecodeErr ElemCursor :=
  if ¬ c.syncMarkers then .ok c
  else
    match decodeUVarint c.data with
    | none => .error .varintOverflow
    | some (kind, bs1) =>
      match decodeUVarint bs1 with
      | none => .error .varintOverflow
      | some (cnt, bs2) =>
        match skipUVarints cnt bs2 with
        | none => .error .varintOverflow
        | some bs3 =>
          if kind = expected then .ok { c with data := bs3 }
          else .error (.syncMismatch expected kind)

/-- Modelled from the spec: cursor construction — obtain the element's byte
range, eagerly decode the full reference table before any caller-visible
read, then check the expected leading sync marker. -/
def NewDecoder (d : PkgDecoder) (k : SectionKind) (i : Nat) (marker : Nat) :
    Except DecodeErr ElemCursor :=
  match elemRange d k i with
  | .error e => .error e
  | .ok bytes =>
    match decodeUVarint bytes with
    | none => .error .varintOverflow
    | some (n, bs) =>
      match decodeRelocTable n bs with
      | none => .error .varintOverflow
      | some (tbl, bs2) =>
        syncCursor marker { syncMarkers := d.syncMarkers, relocs := tbl, data := bs2 }

/-- The sync-marker code expected at the head of an Obj-section element.
Modelled from the spec as an opaque small tag; its concrete value is not
observable in the properties below. -/
def syncObject1Marker : Nat := 45

/-- Modelled from the spec: `PeekObj(index)` — a cheap, side-effect-free
inspection that decodes only the leading sync marker and kind tag of an
Obj-section element, without retaining its reference table or remaining
fields; the envelope decoder is a read-only view and is returned unchanged. -/
def PeekObj (d : PkgDecoder) (i : Nat) : Except DecodeErr Nat × PkgDecoder :=
  (match NewDecoder d .SectionObj i syncObject1Marker with
   | .error e => .error e
   | .ok c =>
     match readUVarint c with
     | .error e => .error e
     | .ok (tag, _) => .ok tag,
   d)

/-- The full structured decode of an Obj-section element: a fresh cursor, the
leading kind tag, and the element's entire remaining content (reference table
and bytes), which later readers consume field by field. -/
def fullObjDecode (d : PkgDecoder) (i : Nat) :
    Except DecodeErr (Nat × List (SectionKind × Nat) × List Nat) :=
  match NewDecoder d .SectionObj i syncObject1Marker with
  | .error e => .error e
  | .ok c =>
    match readUVarint c with
    | .error e => .error e
    | .ok (tag, c1) => .ok (tag, c1.relocs, c1.data)

/-- C4: `PeekObj(i)` has no observable side effect — a full structured decode
of element `i` performed after the peek yields the same result as one
performed without it (the decoder is returned unchanged), and the peek itself
reports exactly the leading kind tag that the full decode sees. -/
theorem peekObj_isolation (d : PkgDecoder) (i : Nat) :
    fullObjDecode (PeekObj d i).2 i = fullObjDecode d i ∧
    (PeekObj d i).2 = d ∧
    (PeekObj d i).1 = (fullObjDecode d i).map (fun t => t.1) := by
  refine ⟨rfl, rfl, ?_⟩
  unfold PeekObj fullObjDecode
  cases NewDecoder d .SectionObj i syncObject1Marker with
  | error e => rfl
  | ok c =>
    cases hr : readUVarint c with
    | error e => simp [hr, Except.map]
    | ok p => simp [hr, Except.map]

/-! ## Archive extraction — `extractPKGDEF` (src/main.go lines 62–105)

Bytes are `Nat`s; Go `int` values that can go negative (the parsed size
field and the scan offset) are `Int`, with `Int.tmod` standing for Go's
truncated `%`.  The scan loop is embedded as a step function iterated on
fuel, because (as proved below) the source loop does not terminate on every
input. -/

/-- Go `data[a:b]` (for in-range non-negative bounds). -/
def goSlice (l : List Nat) (a b : Nat) : List Nat := (l.take b).drop a

/-- The ASCII whitespace bytes `strings.TrimSpace` removes. -/
def isSpaceByte (b : Nat) : Bool :=
  b == 32 || b == 9 || b == 10 || b == 11 || b == 12 || b == 13

/-- `strings.TrimSpace` on a byte string. -/
def trimSpace (l : List Nat) : List Nat :=
  ((l.dropWhile isSpaceByte).reverse.dropWhile isSpaceByte).reverse

/-- The longest run of ASCII decimal digits at the head of the list. -/
def digitsPrefix : List Nat → List Nat
  | [] => []
  | b :: t => if 48 ≤ b ∧ b ≤ 57 then b :: digitsPrefix t else []

/-- The value of a run of ASCII decimal digits. -/
def natOfDigits (l : List Nat) : Nat :=
  l.foldl (fun acc b => acc * 10 + (b - 48)) 0

/-- `fmt.Sscanf(s, "%d", &size)`: an optional sign followed by decimal
digits; when no integer can be parsed the scanned variable keeps its zero
value (`main.go` ignores the returned error in every case). -/
def sscanfInt (s : List Nat) : Int :=
  match s with
  | 45 :: t =>
    if digitsPrefix t = [] then 0 else -(natOfDigits (digitsPrefix t) : Int)
  | 43 :: t =>
    if digitsPrefix t = [] then 0 else (natOfDigits (digitsPrefix t) : Int)
  | _ => (natOfDigits (digitsPrefix s) : Int)

/-- `"!<arch>\n"` — the archive magic. -/
def archiveMagic : List Nat := [33, 60, 97, 114, 99, 104, 62, 10]

/-- `"__.PKGDEF"` as bytes. -/
def pkgdefName : List Nat := [95, 95, 46, 80, 75, 71, 68, 69, 70]

/-- How one iteration of the `extractPKGDEF` entry-scanning loop ends. -/
inductive ScanOutcome
  | found (bytes : List Nat)
  | truncated
  | notFound
  | panicked
deriving DecidableEq, Repr

/-- One iteration of the scan loop of `extractPKGDEF` (`main.go:71–102`):
check the loop condition `offset < len(data)`; `break` (entry not found) when
fewer than 60 header bytes remain; slice the 60-byte header (a Go slice panic
when `offset` has gone negative); trim the 16-byte name and Sscanf the
decimal size field (bytes 48–58); on the `__.PKGDEF` entry either fail as
truncated (`offset+size > len(data)`) or return `data[offset : offset+size]`
after the header (a panic when the parsed size is negative); otherwise
advance by `60 + size` plus one alignment byte when `size % 2 == 1`. -/
def scanStep (data : List Nat) (offset : Int) : ScanOutcome ⊕ Int :=
  if offset < (data.length : Int) then
    if (data.length : Int) < offset + 60 then .inl .notFound
    else if offset < 0 then .inl .panicked
    else
      let header := goSlice data offset.toNat (offset.toNat + 60)
      let size := sscanfInt (trimSpace (goSlice header 48 58))
      if trimSpace (goSlice header 0 16) = pkgdefName then
        if (data.length : Int) < offset + 60 + size then .inl .truncated
        else if size < 0 then .inl .panicked
        else .inl (.found (goSlice data (offset.toNat + 60) (offset.toNat + 60 + size.toNat)))
      else
        .inr (offset + 60 + size + (if Int.tmod size 2 = 1 then 1 else 0))
  else .inl .notFound

/-- The scan loop, iterated on fuel (`none` = the loop has not finished
within `fuel` iterations). -/
def scanLoop (data : List Nat) : Nat → Int → Option ScanOutcome
  | 0, _ => none
  | fuel + 1, offset =>
    match scanStep data offset with
    | .inl r => some r
    | .inr o => scanLoop data fuel o

/-- The outcome of a Go function that can return a value, return an error, or
panic. -/
inductive GoResult (α : Type)
  | ok (a : α)
  | err (msg : String)
  | panicked
deriving DecidableEq, Repr

/-- `extractPKGDEF` (`main.go:62–105`): check the archive magic, then scan
entries from offset 8. `none` = the scan loop has not finished within
`fuel` iterations. -/
def extractPKGDEF (fuel : Nat) (data : List Nat) : Option (GoResult (List Nat)) :=
  if archiveMagic.isPrefixOf data then
    (scanLoop data fuel 8).map fun r =>
      match r with
      | .found bs => .ok bs
      | .truncated => .err "truncated archive"
      | .notFound => .err "__.PKGDEF not found in archive"
      | .panicked => .panicked
  else some (.err "not a valid archive file")

theorem scanStep_pkgdef (data : List Nat) (off : Nat) (s : Nat)
    (hbound : off + 60 ≤ data.length)
    (hname : trimSpace (goSlice (goSlice data off (off + 60)) 0 16) = pkgdefName)
    (hsize : sscanfInt (trimSpace (goSlice (goSlice data off (off + 60)) 48 58)) = (s : Int)) :
    scanStep data (off : Int) =
      if data.length < off + 60 + s then .inl .truncated
      else .inl (.found (goSlice data (off + 60) (off + 60 + s))) := by
  unfold scanStep
  rw [if_pos (by omega), if_neg (by omega), if_neg (by omega)]
  simp only [Int.toNat_natCast]
  simp only [hsize]
  rw [if_pos hname]
  by_cases hc : data.length < off + 60 + s
  · rw [if_pos (by omega), if_pos hc]
  · rw [if_neg (by omega), if_neg (by omega), if_neg hc]
    simp

/-- C5: whenever the entry scan of `extractPKGDEF` reaches an entry whose
60-byte header names `__.PKGDEF` and declares decimal size `s`: if the
`s`-many bytes after the header fit in the file, the loop returns exactly
that declared byte range; if the declared size exceeds the remaining bytes,
it fails with the "truncated archive" error instead of returning a short
read. -/
theorem extractPKGDEF_bounds (data : List Nat) (off fuel : Nat) (s : Nat)
    (hbound : off + 60 ≤ data.length)
    (hname : trimSpace (goSlice (goSlice data off (off + 60)) 0 16) = pkgdefName)
    (hsize : sscanfInt (trimSpace (goSlice (goSlice data off (off + 60)) 48 58)) = (s : Int)) :
    (off + 60 + s ≤ data.length →
      scanLoop data (fuel + 1) (off : Int) =
        some (.found (goSlice data (off + 60) (off + 60 + s)))) ∧
    (data.length < off + 60 + s →
      scanLoop data (fuel + 1) (off : Int) = some .truncated) := by
  have hstep := scanStep_pkgdef data off s hbound hname hsize
  constructor
  · intro hfit
    rw [if_neg (by omega)] at hstep
    simp [scanLoop, hstep]
  · intro htrunc
    rw [if_pos htrunc] at hstep
    simp [scanLoop, hstep]

/-- A minimal hand-built archive: magic, one `__.PKGDEF` entry of declared
size 4, and its 4 content bytes. -/
def archWitness : List Nat :=
  archiveMagic ++
  ([95, 95, 46, 80, 75, 71, 68, 69, 70] ++ List.replicate 7 32) ++  -- name field
  List.replicate 32 32 ++                                           -- mtime/uid/gid/mode
  ([52] ++ List.replicate 9 32) ++                                  -- size field "4"
  [96, 10] ++                                                       -- header terminator
  [1, 2, 3, 4]                                                      -- entry contents

/-- Witness for C5 on the concrete minimal archive: the full declared range
(the bytes `[1, 2, 3, 4]`) comes back, and the same archive truncated by one
byte fails as truncated. -/
theorem extractPKGDEF_bounds_witness :
    scanLoop archWitness (0 + 1) ((8 : Nat) : Int) =
      some (.found (goSlice archWitness (8 + 60) (8 + 60 + 4))) ∧
    goSlice archWitness (8 + 60) (8 + 60 + 4) = [1, 2, 3, 4] ∧
    scanLoop (archWitness.take 71) (0 + 1) ((8 : Nat) : Int) = some .truncated :=
  ⟨(extractPKGDEF_bounds archWitness 8 0 4 (by decide) (by decide) (by decide)).1
      (by decide),
   by decide,
   (extractPKGDEF_bounds (archWitness.take 71) 8 0 4 (by decide) (by decide)
      (by decide)).2 (by decide)⟩

/-- An archive whose first entry header is not `__.PKGDEF` and carries the
malformed decimal size field `"-60"`: `offset += 60; offset += size` leaves
the scan offset unchanged at 8. -/
def archLooping : List Nat :=
  archiveMagic ++
  ([120] ++ List.replicate 15 32) ++        -- name field "x"
  List.replicate 32 32 ++                   -- mtime/uid/gid/mode
  ([45, 54, 48] ++ List.replicate 7 32) ++  -- size field "-60"
  [96, 10]                                  -- header terminator

/-- C9 (refuting the claim): on `archLooping` the entry-scanning loop of
`extractPKGDEF` revisits offset 8 forever — the parsed size `-60` cancels the
`+60` header advance — so no amount of fuel makes `extractPKGDEF` return. -/
theorem extractPKGDEF_diverges (fuel : Nat) :
    scanLoop archLooping fuel 8 = none ∧ extractPKGDEF fuel archLooping = none := by
  have hstep : scanStep archLooping 8 = .inr 8 := by decide
  have hloop : ∀ f : Nat, scanLoop archLooping f 8 = none := by
    intro f
    induction f with
    | zero => rfl
    | succ f ih =>
      simp only [scanLoop, hstep]
      exact ih
  refine ⟨hloop fuel, ?_⟩
  unfold extractPKGDEF
  rw [if_pos (by decide), hloop fuel]
  rfl

/-! ## Payload location — `extractUnifiedIR` (src/main.go lines 107–134) -/

/-- `bytes.Index`: the first index at which `pat` occurs as a contiguous
sublist of `l`, or `none`. -/
def findSub (pat : List Nat) : List Nat → Option Nat
  | [] => if pat.isPrefixOf [] then some 0 else none
  | b :: t =>
    if pat.isPrefixOf (b :: t) then some 0 else (findSub pat t).map (· + 1)

/-- `"\n$$B\n"` — the export-data start marker. -/
def startMarker : List Nat := [10, 36, 36, 66, 10]

/-- `"\n$$\n"` — the export-data end marker. -/
def endMarker : List Nat := [10, 36, 36, 10]

/-- `extractUnifiedIR` (`main.go:107–134`): find the start marker, skip its 5
bytes, find the end marker in the rest, take the delimited block, and require
it to be non-empty with leading byte `'u'` (117); the block is returned
unchanged, tag byte included. -/
def extractUnifiedIR (pd : List Nat) : Except String (List Nat) :=
  match findSub startMarker pd with
  | none => .error "could not find export data start marker"
  | some s0 =>
    match findSub endMarker (pd.drop (s0 + 5)) with
    | none => .error "could not find export data end marker"
    | some e =>
      if (pd.drop (s0 + 5)).take e = [] ∨
          ((pd.drop (s0 + 5)).take e).head? ≠ some 117 then
        .error "not unified IR format (expected 'u' prefix)"
      else .ok ((pd.drop (s0 + 5)).take e)

/-- C6: payload location fails exactly when the start marker is absent, or no
end marker follows it, or the delimited block is empty or its first byte is
not the `'u'` tag; on success it returns the delimited block unchanged. -/
theorem payload_location_spec (pd : List Nat) :
    ((∃ msg, extractUnifiedIR pd = .error msg) ↔
      (findSub startMarker pd = none ∨
        ∃ s, findSub startMarker pd = some s ∧
          (findSub endMarker (pd.drop (s + 5)) = none ∨
            ∃ e, findSub endMarker (pd.drop (s + 5)) = some e ∧
              ((pd.drop (s + 5)).take e = [] ∨
                ((pd.drop (s + 5)).take e).head? ≠ some 117)))) ∧
    (∀ s e b, findSub startMarker pd = some s →
      findSub endMarker (pd.drop (s + 5)) = some e →
      extractUnifiedIR pd = .ok b → b = (pd.drop (s + 5)).take e) := by
  rcases h1 : findSub startMarker pd with _ | s0
  · refine ⟨⟨fun _ => .inl rfl,
      fun _ => ⟨"could not find export data start marker",
        by simp [extractUnifiedIR, h1]⟩⟩, ?_⟩
    intro s e b hs
    cases hs
  · rcases h2 : findSub endMarker (pd.drop (s0 + 5)) with _ | e0
    · refine ⟨⟨fun _ => .inr ⟨s0, rfl, .inl h2⟩,
        fun _ => ⟨"could not find export data end marker",
          by simp [extractUnifiedIR, h1, h2]⟩⟩, ?_⟩
      intro s e b hs he
      cases hs
      rw [h2] at he
      cases he
    · by_cases hcond : (pd.drop (s0 + 5)).take e0 = [] ∨
          ((pd.drop (s0 + 5)).take e0).head? ≠ some 117
      · refine ⟨⟨fun _ => .inr ⟨s0, rfl, .inr ⟨e0, h2, hcond⟩⟩,
          fun _ => ⟨"not unified IR format (expected 'u' prefix)",
            by simp only [extractUnifiedIR, h1, h2]; rw [if_pos hcond]⟩⟩, ?_⟩
        intro s e b hs he hb
        simp only [extractUnifiedIR, h1, h2] at hb
        rw [if_pos hcond] at hb
        cases hb
      · constructor
        · constructor
          · intro hfail
            obtain ⟨msg, hmsg⟩ := hfail
            simp only [extractUnifiedIR, h1, h2] at hmsg
            rw [if_neg hcond] at hmsg
            cases hmsg
          · intro hr
            rcases hr with hnone | ⟨s, hs, hrest⟩
            · cases hnone
            · cases hs
              rcases hrest with hnone | ⟨e, he, hc⟩
              · rw [h2] at hnone
                cases hnone
              · rw [h2] at he
                cases he
                exact absurd hc hcond
        · intro s e b hs he hb
          cases hs
          rw [h2] at he
          cases he
          simp only [extractUnifiedIR, h1, h2] at hb
          rw [if_neg hcond] at hb
          cases hb
          rfl

/-! ## Listing limit — `showDetailedFormat` (src/main.go lines 181–207) -/

/-- The cap on printed entries (`main.go:184–188`): `limit` when
`0 < limit < count`, otherwise the full count.  `limit` is a Go `int`. -/
def listCap (limit : Int) (count : Nat) : Nat :=
  if 0 < limit ∧ limit < (count : Int) then limit.toNat else count

/-- The lines a section listing of `showDetailedFormat` prints for its
entries: one rendered line per index below the cap, then — exactly when the
cap is below the count — a single `"... and K more"` trailer. -/
def sectionListing (limit : Int) (count : Nat) (render : Nat → String) :
    List String :=
  (List.range (listCap limit count)).map render ++
    (if listCap limit count < count then
      ["  ... and " ++ toString (count - listCap limit count) ++ " more"]
    else [])

/-- C7: with `--limit N`, `0 < N < c`, exactly `N` entries are printed
followed by one `"... and K more"` trailer with `K = c - N`; with
`--limit 0` all `c` entries are printed and no trailer is emitted. -/
theorem limit_behavior (c : Nat) (N : Int) (render : Nat → String)
    (h1 : 0 < N) (h2 : N < (c : Int)) :
    sectionListing N c render =
      (List.range N.toNat).map render ++
        ["  ... and " ++ toString (c - N.toNat) ++ " more"] ∧
    ((List.range N.toNat).map render).length = N.toNat ∧
    sectionListing 0 c render = (List.range c).map render ∧
    ((List.range c).map render).length = c := by
  have hcap : listCap N c = N.toNat := by
    unfold listCap
    rw [if_pos ⟨h1, h2⟩]
  have hcap0 : listCap 0 c = c := by
    unfold listCap
    rw [if_neg (by omega)]
  refine ⟨?_, by simp, ?_, by simp⟩
  · unfold sectionListing
    rw [hcap, if_pos (by omega)]
  · unfold sectionListing
    rw [hcap0, if_neg (by omega)]
    simp

/-- Witness for C7 at a five-element section with `--limit 2` and
`--limit 0`. -/
theorem limit_behavior_witness :
    sectionListing 2 5 (fun i => toString i) =
      (List.range (2 : Int).toNat).map (fun i => toString i) ++
        ["  ... and " ++ toString (5 - (2 : Int).toNat) ++ " more"] ∧
    ((List.range (2 : Int).toNat).map (fun i => toString i)).length =
      (2 : Int).toNat ∧
    sectionListing 0 5 (fun i => toString i) =
      (List.range 5).map (fun i => toString i) ∧
    ((List.range 5).map (fun i => toString i)).length = 5 :=
  limit_behavior 5 2 (fun i => toString i) (by norm_num) (by norm_num)

/-! ## Command dispatch — `main` (src/main.go lines 16–60) -/

/-- How an invocation of the command ends. -/
inductive ExitBehavior
  | helpUsage
  | missingArgUsage
  | errorDiag (line : String)
  | done
  | crashed
  | hung
deriving DecidableEq, Repr

/-- The process exit code of each ending (`none`: the process never exits). -/
def exitCode : ExitBehavior → Option Nat
  | .helpUsage => some 0
  | .missingArgUsage => some 1
  | .errorDiag _ => some 1
  | .done => some 0
  | .crashed => some 2
  | .hung => none

/-- Whether the ending printed the usage text. -/
def printsUsage : ExitBehavior → Bool
  | .helpUsage => true
  | .missingArgUsage => true
  | _ => false

/-- `main` (`main.go:16–60`) over its parsed inputs: `--help` (handled inside
Go's flag package: usage and exit 0), the positional-argument count, the
result of `os.ReadFile`, then `extractPKGDEF`, `extractUnifiedIR`, and
`showDetailedFormat`.  The structural decode inside `showDetailedFormat` runs
in the `pkgbits` package, which is not among the available sources, so its
outcome is a parameter here (modelled from the spec: structural failures
surface as errors and abort the run); each failing stage prints its one-line
`"Error ...: ..."` diagnostic on the error stream and exits 1. -/
def runMain (helpFlag : Bool) (nargs : Nat) (readRes : Except String (List Nat))
    (showFmt : List Nat → Except String Unit) (fuel : Nat) : ExitBehavior :=
  if helpFlag then .helpUsage
  else if nargs < 1 then .missingArgUsage
  else
    match readRes with
    | .error e => .errorDiag ("Error reading file: " ++ e)
    | .ok data =>
      match extractPKGDEF fuel data with
      | none => .hung
      | some .panicked => .crashed
      | some (.err e) => .errorDiag ("Error extracting __.PKGDEF: " ++ e)
      | some (.ok pk) =>
        match extractUnifiedIR pk with
        | .error e => .errorDiag ("Error extracting Unified IR: " ++ e)
        | .ok uir =>
          match showFmt uir with
          | .error e => .errorDiag ("Error decoding format: " ++ e)
          | .ok _ => .done

/-- C8: `--help` prints usage and exits 0; a missing archive argument prints
usage and exits 1; every extraction, framing, or structural-decode failure
emits its one-line diagnostic and exits 1; and a fully successful run exits
0. -/
theorem main_exit_codes (nargs : Nat) (readRes : Except String (List Nat))
    (showFmt : List Nat → Except String Unit) (fuel : Nat)
    (data pk uir : List Nat) (e : String) :
    (exitCode (runMain true nargs readRes showFmt fuel) = some 0 ∧
      printsUsage (runMain true nargs readRes showFmt fuel) = true) ∧
    (exitCode (runMain false 0 readRes showFmt fuel) = some 1 ∧
      printsUsage (runMain false 0 readRes showFmt fuel) = true) ∧
    (readRes = .error e →
      runMain false 1 readRes showFmt fuel =
        .errorDiag ("Error reading file: " ++ e)) ∧
    (extractPKGDEF fuel data = some (.err e) →
      runMain false 1 (.ok data) showFmt fuel =
        .errorDiag ("Error extracting __.PKGDEF: " ++ e)) ∧
    (extractPKGDEF fuel data = some (.ok pk) → extractUnifiedIR pk = .error e →
      runMain false 1 (.ok data) showFmt fuel =
        .errorDiag ("Error extracting Unified IR: " ++ e)) ∧
    (extractPKGDEF fuel data = some (.ok pk) → extractUnifiedIR pk = .ok uir →
      showFmt uir = .error e →
      runMain false 1 (.ok data) showFmt fuel =
        .errorDiag ("Error decoding format: " ++ e)) ∧
    (extractPKGDEF fuel data = some (.ok pk) → extractUnifiedIR pk = .ok uir →
      showFmt uir = .ok () →
      runMain false 1 (.ok data) showFmt fuel = .done ∧
        exitCode (runMain false 1 (.ok data) showFmt fuel) = some 0) ∧
    (∀ line, exitCode (.errorDiag line) = some 1) := by
  refine ⟨⟨by simp [runMain, exitCode], by simp [runMain, printsUsage]⟩,
    ⟨by simp [runMain, exitCode], by simp [runMain, printsUsage]⟩,
    ?_, ?_, ?_, ?_, ?_, fun _ => rfl⟩
  · intro h
    simp [runMain, h]
  · intro h
    simp [runMain, h]
  · intro h1 h2
    simp [runMain, h1, h2]
  · intro h1 h2 h3
    simp [runMain, h1, h2, h3]
  · intro h1 h2 h3
    simp [runMain, h1, h2, h3, exitCode]

/-! ## Private-root listing loop — `showDetailedFormat` (src/main.go
lines 296–320) -/

/-- The body-listing loop (`main.go:308–315`), generic over the cursor
implementation: every iteration `i < bodyCount` reads the package path, the
symbol name, and the Body reloc from the cursor; only iterations with
`i < cap` print a line.  Returns the final cursor state, the decoded
(package-path, symbol-name, body-reloc) triples in read order, and the
printed lines. -/
def bodiesLoop {σ : Type} (readStr : σ → String × σ) (readReloc : σ → Nat × σ)
    (cap : Nat) : Nat → Nat → σ → σ × List (String × String × Nat) × List String
  | _, 0, s => (s, [], [])
  | i, rem + 1, s =>
    let p1 := readStr s
    let p2 := readStr p1.2
    let p3 := readReloc p2.2
    let line :=
      if i < cap then
        ["  [" ++ toString i ++ "] " ++ p1.1 ++ "." ++ p2.1 ++
          " (body index: " ++ toString p3.1 ++ ")"]
      else []
    let r := bodiesLoop readStr readReloc cap (i + 1) rem p3.2
    (r.1, (p1.1, p2.1, p3.1) :: r.2.1, line ++ r.2.2)

/-- The private-root body listing (`main.go:302–320`): run the loop over all
`bodyCount` triples with the cap computed from `--limit`, print the trailer
when capped, then call `Sync(EOF)` on the cursor. -/
def privateRootBodies {σ : Type} (readStr : σ → String × σ)
    (readReloc : σ → Nat × σ) (syncEOF : σ → σ) (limit : Int) (bodyCount : Nat)
    (s : σ) : σ × List (String × String × Nat) × List String :=
  let r := bodiesLoop readStr readReloc (listCap limit bodyCount) 0 bodyCount s
  (syncEOF r.1, r.2.1,
    r.2.2 ++
      (if listCap limit bodyCount < bodyCount then
        ["  ... and " ++ toString (bodyCount - listCap limit bodyCount) ++ " more"]
      else []))

theorem bodiesLoop_cap_independent {σ : Type} (readStr : σ → String × σ)
    (readReloc : σ → Nat × σ) (cap1 cap2 : Nat) :
    ∀ (n i : Nat) (s : σ),
      (bodiesLoop readStr readReloc cap1 i n s).1 =
        (bodiesLoop readStr readReloc cap2 i n s).1 ∧
      (bodiesLoop readStr readReloc cap1 i n s).2.1 =
        (bodiesLoop readStr readReloc cap2 i n s).2.1 ∧
      (bodiesLoop readStr readReloc cap1 i n s).2.1.length = n := by
  intro n
  induction n with
  | zero => intro i s; exact ⟨rfl, rfl, rfl⟩
  | succ m ih =>
    intro i s
    obtain ⟨ha, hb, hc⟩ :=
      ih (i + 1) (readReloc (readStr (readStr s).2).2).2
    refine ⟨?_, ?_, ?_⟩
    · simp [bodiesLoop, ha]
    · simp [bodiesLoop, hb]
    · simp [bodiesLoop, hc]

/-- C10: in the private-root listing, the `--limit` value influences only
which lines are printed, never what the cursor reads: for any cursor
implementation and any two limit values, the decoded triple sequence and the
final cursor state (including the terminating `Sync(EOF)`) are identical, and
all `bodyCount` triples are decoded in full. -/
theorem limit_noninterference {σ : Type} (readStr : σ → String × σ)
    (readReloc : σ → Nat × σ) (syncEOF : σ → σ) (l1 l2 : Int) (n : Nat)
    (s : σ) :
    (privateRootBodies readStr readReloc syncEOF l1 n s).1 =
      (privateRootBodies readStr readReloc syncEOF l2 n s).1 ∧
    (privateRootBodies readStr readReloc syncEOF l1 n s).2.1 =
      (privateRootBodies readStr readReloc syncEOF l2 n s).2.1 ∧
    (privateRootBodies readStr readReloc syncEOF l1 n s).2.1.length = n := by
  obtain ⟨ha, hb, hc⟩ := bodiesLoop_cap_independent readStr readReloc
    (listCap l1 n) (listCap l2 n) n 0 s
  exact ⟨by simp [privateRootBodies, ha], by simp [privateRootBodies, hb],
    by simp [privateRootBodies, hc]⟩

end UIR
